import Mathlib

/-
Verification of lofar_helpers: shallow embedding of
subtract/subtract_with_dp3.py and analysis/montecarlo_results.py.
-/

/-- Outcome of running the get_largest_divider loop: a returned value,
a ZeroDivisionError raised by the modulo at r = 0, or the sys.exit
branch reached after the loop. -/
inductive DividerOutcome where
  | ret (r : Nat)
  | zeroMod
  | errExit
deriving DecidableEq, Repr

/-- Loop body of get_largest_divider: for r over the given list,
Python first evaluates inp % r (raising ZeroDivisionError when r = 0),
and returns r on inp % r == 0. -/
def gldLoop (inp : Nat) : List Nat → DividerOutcome
  | [] => DividerOutcome.errExit
  | r :: rest =>
    if r = 0 then DividerOutcome.zeroMod
    else if inp % r = 0 then DividerOutcome.ret r
    else gldLoop inp rest

/-- Embedding of get_largest_divider(inp, max): iterate r over
range(max)[::-1], i.e. max-1 down to 0. -/
def get_largest_divider (inp max : Nat) : DividerOutcome :=
  gldLoop inp (List.range max).reverse

/-- Whitespace test used to model the whitespace handling of the Python
functions str.split and int (restricted to the common ASCII whitespace). -/
def isWs (c : Char) : Bool := c = ' ' || c = '\t' || c = '\n' || c = '\r'

/-- Sublist containment on character lists, modelling the Python
substring test needle in hay. -/
def listContainsSub (needle : List Char) : List Char → Bool
  | [] => needle.isEmpty
  | c :: rest => needle.isPrefixOf (c :: rest) || listContainsSub needle rest

/-- Python substring containment needle in hay on strings. -/
def pyInStr (needle hay : String) : Bool := listContainsSub needle.data hay.data

/-- String replacement with an explicit fuel argument (fuel is the length
of the scanned list, so it never runs out); models Python str.replace,
which replaces every occurrence of the pattern. -/
def replaceFuel (pat repl : List Char) : Nat → List Char → List Char
  | _, [] => []
  | 0, hay => hay
  | fuel + 1, c :: rest =>
    if pat ≠ [] ∧ pat.isPrefixOf (c :: rest) then
      repl ++ replaceFuel pat repl fuel ((c :: rest).drop pat.length)
    else
      c :: replaceFuel pat repl fuel rest

/-- Python s.replace(pat, repl) on strings. -/
def pyReplaceStr (s pat repl : String) : String :=
  ⟨replaceFuel pat.data repl.data s.data.length s.data⟩

/-- Helper for pySplitStr: split on whitespace runs, dropping empty
tokens, with an accumulator for the current (reversed) token. -/
def splitWsAux : List Char → List Char → List (List Char)
  | acc, [] => if acc = [] then [] else [acc.reverse]
  | acc, c :: rest =>
    if isWs c then
      if acc = [] then splitWsAux [] rest
      else acc.reverse :: splitWsAux [] rest
    else splitWsAux (c :: acc) rest

/-- Python s.split() with no argument: split on whitespace runs and
drop empty tokens. -/
def pySplitStr (s : String) : List String :=
  (splitWsAux [] s.data).map fun cs => ⟨cs⟩

/-- Python sequence indexing l[i], supporting the negative indices used
by the scripts; out-of-range indices give none (IndexError). -/
def pyGet {α : Type} (l : List α) (i : Int) : Option α :=
  if 0 ≤ i then l.get? i.toNat
  else if (-i).toNat ≤ l.length then l.get? (l.length - (-i).toNat)
  else none

/-- Python str.isdigit restricted to ASCII digits: nonempty and all
characters are digits. -/
def pyIsdigit (s : String) : Bool := !s.data.isEmpty && s.data.all Char.isDigit

/-- Numeric value of a list of decimal digit characters. -/
def digitsVal (cs : List Char) : Nat := cs.foldl (fun a c => a * 10 + (c.toNat - 48)) 0

/-- Core of Python int(str) after whitespace stripping: an optional
sign followed by a nonempty run of decimal digits; anything else
raises ValueError (none). -/
def pyIntList : List Char → Option Int
  | [] => none
  | c :: rest =>
    if c = '+' then
      if !rest.isEmpty && rest.all Char.isDigit then some (digitsVal rest) else none
    else if c = '-' then
      if !rest.isEmpty && rest.all Char.isDigit then some (-(digitsVal rest : Int)) else none
    else if (c :: rest).all Char.isDigit then some (digitsVal (c :: rest)) else none

/-- Strip leading and trailing whitespace from a character list. -/
def stripWsList (cs : List Char) : List Char :=
  ((cs.dropWhile isWs).reverse.dropWhile isWs).reverse

/-- Python int(s) for a string argument in base 10. -/
def pyInt (s : String) : Option Int := pyIntList (stripWsList s.data)

/-- Base DP3 command template from SubtractDP3.__init__ (and restored
at the end of SubtractDP3.run). -/
def dp3Base : List String :=
  ["DP3", "msin.missingdata=True", "msin.orderms=False", "msout.storagemanager=dysco"]

/-- State of the SubtractDP3 command builder: the measurement-set list,
the token list self.cmd and the enabled-step list self.steps. -/
structure SubtractDP3 where
  mslist : List String
  cmd : List String
  steps : List String
deriving DecidableEq, Repr

/-- SubtractDP3.__init__(mslist). -/
def SubtractDP3.init (mslist : List String) : SubtractDP3 :=
  ⟨mslist, dp3Base, []⟩

/-- Tokens appended to self.cmd by SubtractDP3.predict (including the
duplicated usebeammodel token of the source and the conditional
subtract tokens appended after msout=.). -/
def predictTokens (sourcedb : String) (subtract : Bool) (h5parm : String) : List String :=
  ["predict.type = predict",
   "predict.sourcedb = " ++ sourcedb,
   "predict.usebeammodel = True",
   "predict.usebeammodel = True",
   "predict.beammode = array_factor",
   "predict.applycal.steps = [amp, phase]",
   "predict.applycal.amp.correction = amplitude000",
   "predict.applycal.phase.correction = phase000",
   "predict.applycal.parmdb = " ++ h5parm,
   "msout=."] ++
  (if subtract then ["predict.operation = subtract", "msout.datacolumn = SUBTRACT_DATA"]
   else [])

/-- SubtractDP3.predict: appends the step name and the predict tokens. -/
def SubtractDP3.predict (s : SubtractDP3) (sourcedb : String) (subtract : Bool)
    (h5parm : String) : SubtractDP3 :=
  { s with steps := s.steps ++ ["predict"],
           cmd := s.cmd ++ predictTokens sourcedb subtract h5parm }

/-- Name of the command file written at loop index n in SubtractDP3.run. -/
def runFileName (type : String) (n : Nat) : String :=
  "dp3" ++ type ++ "_" ++ toString n ++ ".cmd"

/-- Loop of SubtractDP3.run: per measurement set, append its msin/msout
tokens to the running command and write the whole command to a file;
the command is not reset inside the loop. -/
def runFilesAux (type : String) : Nat → List String → List String → List (String × List String)
  | _, _, [] => []
  | n, cmd, ms :: rest =>
    let cmd2 := cmd ++ ["msin=" ++ ms, "msout=sub_" ++ ms]
    (runFileName type n, cmd2) :: runFilesAux type (n + 1) cmd2 rest

/-- SubtractDP3.run: produces the command files of the loop and then
resets self.cmd to the base template (self.steps is left unchanged). -/
def SubtractDP3.run (s : SubtractDP3) (type : String) :
    List (String × List String) × SubtractDP3 :=
  (runFilesAux type 0 s.cmd s.mslist, { s with cmd := dp3Base })

/-- Value of self.cmd at the top of each iteration of the run loop,
before the msin/msout tokens of that measurement set are appended. -/
def runPreStatesAux : List String → List String → List (List String)
  | _, [] => []
  | cmd, ms :: rest =>
    cmd :: runPreStatesAux (cmd ++ ["msin=" ++ ms, "msout=sub_" ++ ms]) rest

/-- Token starts with the given key, on the underlying character lists. -/
def tokStarts (key tok : String) : Bool := key.data.isPrefixOf tok.data

/-- Adjacent msin=/msout= token pairs inside a command token list. -/
def msinMsoutPairs (toks : List String) : List (String × String) :=
  (toks.zip toks.tail).filter fun p => tokStarts "msin=" p.1 && tokStarts "msout=" p.2

/-- Concrete run of the builder on two measurement sets: init, predict
(with subtract), then run, as in the main script without skip_predict. -/
def c1Run : List (String × List String) × SubtractDP3 :=
  ((SubtractDP3.init ["a.ms", "b.ms"]).predict "sky.sourcedb" true "sol.h5").run "predict"

/-- One solution table of an H5 file: its AXES attribute string and the
length of the first dimension of its pol array. -/
structure SolTab where
  axes : String
  polShape0 : Nat
deriving DecidableEq, Repr

/-- H5 solution file as inspected by the script: the named sol000
solution tables in encounter order. -/
structure H5Parm where
  soltabs : List (String × SolTab)
deriving DecidableEq, Repr

/-- SubtractDP3.isfulljones: look at the first solution table; true iff
its AXES contains pol and its pol axis has 4 entries; an empty table
list raises IndexError (none). -/
def isfulljones (h5 : H5Parm) : Option Bool :=
  match h5.soltabs with
  | [] => none
  | (_, st) :: _ =>
    if pyInStr "pol" st.axes then
      if st.polShape0 = 4 then some true else some false
    else some false

/-- Step name ac<n> used by the non-fulljones applycal loop. -/
def acName (n : Nat) : String := "ac" ++ toString n

/-- Non-fulljones applycal loop of moreDP3: one applycal step per
solution-table key, with a running counter; returns the appended
command tokens and the appended step names. -/
def acLoop (applycal_h5 : String) : Nat → List String → List String × List String
  | _, [] => ([], [])
  | n, corr :: rest =>
    let p := acLoop applycal_h5 (n + 1) rest
    ([acName n ++ ".type=applycal",
      acName n ++ ".parmdb=" ++ applycal_h5,
      acName n ++ ".correction=" ++ corr] ++ p.1,
     acName n :: p.2)

/-- Applycal branch of SubtractDP3.moreDP3: fulljones files get a
single ac step, others get one ac<n> step per solution-table key. -/
def applycalBranch (cmd steps : List String) (applycal_h5 : String) (h5 : H5Parm) :
    Option (List String × List String) :=
  match isfulljones h5 with
  | none => none
  | some true =>
    some (cmd ++ ["ac.type=applycal",
                  "ac.parmdb=" ++ applycal_h5,
                  "ac.correction=fulljones",
                  "ac.soltab=[amplitude000,phase000]"],
          steps ++ ["ac"])
  | some false =>
    let p := acLoop applycal_h5 0 (h5.soltabs.map Prod.fst)
    some (cmd ++ p.1, steps ++ p.2)

/-- Frequency-averaging branch of SubtractDP3.moreDP3 for a non-None
freqavg: isdigit or a non-alphabetic last character selects the
freqstep token via int(freqavg) (none on ValueError or on the
IndexError of indexing an empty string); otherwise the freqresolution
token carries the string. -/
def avgFreqTokens (freqavg : String) : Option (List String) :=
  if pyIsdigit freqavg then
    (pyInt freqavg).map fun n => ["avg.freqstep=" ++ toString n]
  else
    match freqavg.data.getLast? with
    | none => none
    | some c =>
      if !c.isAlpha then (pyInt freqavg).map fun n => ["avg.freqstep=" ++ toString n]
      else some ["avg.freqresolution=" ++ freqavg]

/-- Elementwise numpy helpers over rationals. -/
def np_sum (xs : List ℚ) : ℚ := xs.sum

/-- Numpy elementwise power of an array. -/
def np_power (xs : List ℚ) (k : Nat) : List ℚ := xs.map (· ^ k)

/-- Numpy elementwise division of two arrays. -/
def np_divide (xs ys : List ℚ) : List ℚ := List.zipWith (· / ·) xs ys

/-- Numpy elementwise reciprocal 1/array. -/
def np_recip (xs : List ℚ) : List ℚ := xs.map fun x => 1 / x

/-- Numpy mean: sum divided by length. -/
def np_mean (xs : List ℚ) : ℚ := np_sum xs / xs.length

/-- Value part of the slope prints and of the Total Pearson/Spearman
prints: np.sum(np.divide(vals, np.power(errs, 2))) divided by
np.sum(1/np.power(errs, 2)). -/
def invVarPrintValue (vals errs : List ℚ) : ℚ :=
  np_sum (np_divide vals (np_power errs 2)) / np_sum (np_recip (np_power errs 2))

/-- Value part of the per-variant Pearson/Spearman prints:
np.mean of the collected coefficients. -/
def corrVariantPrintValue (xs : List ℚ) : ℚ := np_mean xs

/-- Inverse-variance weighted mean as worded by the spec:
mean = Σ(v_i / e_i²) / Σ(1 / e_i²). -/
def specInvVarMean (vals errs : List ℚ) : ℚ :=
  (List.zipWith (fun v e => v / e ^ 2) vals errs).sum / (errs.map fun e => 1 / e ^ 2).sum

/-- Plain unweighted mean as worded by the spec. -/
def specUnweightedMean (xs : List ℚ) : ℚ := xs.sum / xs.length

/-- The uncertainty function of montecarlo_results.py:
unc = 1/np.power(d_err, 2); return np.sqrt(1/np.sum(unc)). -/
noncomputable def uncertainty (d_err : List ℝ) : ℝ :=
  let unc := (d_err.map fun e => e ^ 2).map fun x => 1 / x
  Real.sqrt (1 / unc.sum)

/-- Combined-uncertainty formula as worded by the spec:
sqrt(1 / Σ(1/e_i²)). -/
noncomputable def specTotalUncertainty (errs : List ℝ) : ℝ :=
  Real.sqrt (1 / (errs.map fun e => 1 / e ^ 2).sum)

/-- The six values appended per result file, as the (pre-float)
strings picked from the file. -/
structure PtpResult where
  slope : String
  slope_err : String
  pearson : String
  pearson_err : String
  spearman : String
  spearman_err : String
deriving DecidableEq, Repr

/-- Cleanup .replace of the parenthesis and the comma applied to the
Pearson and Spearman value tokens. -/
def stripParenComma (s : String) : String :=
  pyReplaceStr (pyReplaceStr s "(" "") "," ""

/-- Tokens of line 3 after removing the slope phrase. -/
def slopeLineTokens (l : String) : List String :=
  pySplitStr (pyReplaceStr l "Linear regression slope is " "")

/-- Per-file extraction of the a399_cb, a401_cb, bridge_cb and
a399_rudnick loops: Pearson value from lines[-4], Pearson error from
lines[-3], Spearman value from lines[-2], Spearman error from
lines[-1], slope and slope error from lines[3]. -/
def extract_cb (lines : List String) : Option PtpResult := do
  let pl ← pyGet lines (-4)
  let pearson ← pyGet (pySplitStr pl) 0
  let pel ← pyGet lines (-3)
  let pearson_err ← pyGet (pySplitStr pel) (-1)
  let sl ← pyGet lines (-2)
  let spearman ← pyGet (pySplitStr sl) 0
  let sel ← pyGet lines (-1)
  let spearman_err ← pyGet (pySplitStr sel) (-1)
  let ll ← pyGet lines 3
  let slope ← pyGet (slopeLineTokens ll) 0
  let slope_err ← pyGet (slopeLineTokens ll) (-1)
  pure ⟨slope, slope_err, stripParenComma pearson, pearson_err,
        stripParenComma spearman, spearman_err⟩

/-- Per-file extraction of the a401_rudnick and bridge_rudnick loops:
identical to extract_cb except that the Pearson error is taken from
lines[-1] instead of lines[-3]. -/
def extract_a401_rudnick (lines : List String) : Option PtpResult := do
  let pl ← pyGet lines (-4)
  let pearson ← pyGet (pySplitStr pl) 0
  let pel ← pyGet lines (-1)
  let pearson_err ← pyGet (pySplitStr pel) (-1)
  let sl ← pyGet lines (-2)
  let spearman ← pyGet (pySplitStr sl) 0
  let sel ← pyGet lines (-1)
  let spearman_err ← pyGet (pySplitStr sel) (-1)
  let ll ← pyGet lines 3
  let slope ← pyGet (slopeLineTokens ll) 0
  let slope_err ← pyGet (slopeLineTokens ll) (-1)
  pure ⟨slope, slope_err, stripParenComma pearson, pearson_err,
        stripParenComma spearman, spearman_err⟩

/-- A wellformed result file in the fixed format described by the spec:
slope on line index 3 and the four statistics lines at the end, with
the Pearson error 0.1 different from the Spearman error 0.3. -/
def sampleLines : List String :=
  ["ptp results",
   "region stats",
   "fit:",
   "Linear regression slope is 1.5 +- 0.2",
   "(0.8, 0.01) pearson",
   "Pearson error: 0.1",
   "(0.7, 0.02) spearman",
   "Spearman error: 0.3"]

theorem range_reverse_succ (n : Nat) :
    (List.range (n + 1)).reverse = n :: (List.range n).reverse := by
  rw [List.range_succ, List.reverse_append]
  rfl

theorem gld_succ (inp n : Nat) :
    get_largest_divider inp (n + 1) =
      if n = 0 then DividerOutcome.zeroMod
      else if inp % n = 0 then DividerOutcome.ret n
      else get_largest_divider inp n := by
  unfold get_largest_divider
  rw [range_reverse_succ]
  rfl

/-- Characterization of get_largest_divider on valid inputs: it returns
the greatest divisor of inp that is strictly below max. -/
theorem gld_spec (c : Nat) (hc : 1 ≤ c) :
    ∀ a, 2 ≤ a → ∃ r, get_largest_divider c a = DividerOutcome.ret r ∧
      0 < r ∧ r < a ∧ r ∣ c ∧ ∀ d, 0 < d → d < a → d ∣ c → d ≤ r := by
  intro a ha
  induction a, ha using Nat.le_induction with
  | base =>
    refine ⟨1, ?_, by omega, by omega, one_dvd c, ?_⟩
    · rw [gld_succ]
      simp [Nat.mod_one]
    · intro d hd hd2 _
      omega
  | succ n hn ih =>
    rw [gld_succ]
    have hn0 : n ≠ 0 := by omega
    by_cases hmod : c % n = 0
    · refine ⟨n, by simp [hn0, hmod], by omega, by omega,
        Nat.dvd_of_mod_eq_zero hmod, ?_⟩
      intro d _ hd2 _
      omega
    · obtain ⟨r, hr, hr0, hrlt, hrdvd, hrmax⟩ := ih
      refine ⟨r, by simp [hn0, hmod, hr], hr0, by omega, hrdvd, ?_⟩
      intro d hd0 hdlt hddvd
      rcases Nat.lt_succ_iff_lt_or_eq.mp hdlt with h | h
      · exact hrmax d hd0 h hddvd
      · exfalso
        apply hmod
        rw [h] at hddvd
        obtain ⟨k, hk⟩ := hddvd
        rw [hk, Nat.mul_mod_right]

theorem gld_one (c : Nat) : get_largest_divider c 1 = DividerOutcome.zeroMod := by
  rw [gld_succ]
  simp

/-- Helper: the per-variant unweighted mean expression of the source
equals the plain mean worded by the spec. -/
theorem corrVariant_eq_spec (xs : List ℚ) :
    corrVariantPrintValue xs = specUnweightedMean xs := rfl

/-- Helper: the numpy expression used by every slope print and by the
Total correlation prints equals the inverse-variance weighted mean as
worded by the spec. -/
theorem invVar_eq_spec (vals errs : List ℚ) :
    invVarPrintValue vals errs = specInvVarMean vals errs := by
  simp [invVarPrintValue, specInvVarMean, np_sum, np_divide, np_power, np_recip,
    List.zipWith_map_right, List.map_map, Function.comp_def]

/-- Helper: the uncertainty function equals the spec formula
sqrt(1 / sum of inverse squared errors). -/
theorem uncertainty_eq_spec (errs : List ℝ) :
    uncertainty errs = specTotalUncertainty errs := by
  simp [uncertainty, specTotalUncertainty, List.map_map, Function.comp_def]

/-- Helper: closed form of the non-fulljones applycal loop with a
running counter, via enumFrom. -/
theorem acLoop_eq (applycal_h5 : String) (k : Nat) (names : List String) :
    acLoop applycal_h5 k names =
      ((names.enumFrom k).flatMap fun p =>
          [acName p.1 ++ ".type=applycal",
           acName p.1 ++ ".parmdb=" ++ applycal_h5,
           acName p.1 ++ ".correction=" ++ p.2],
       (names.enumFrom k).map fun p => acName p.1) := by
  induction names generalizing k with
  | nil => simp [acLoop, List.enumFrom]
  | cons c cs ih => simp [acLoop, List.enumFrom, ih]

/-- Helper: a decimal digit is not whitespace. -/
theorem digit_not_ws (c : Char) (h : c.isDigit = true) : isWs c = false := by
  have h1 : ¬(c = ' ') := by intro he; rw [he] at h; exact absurd h (by decide)
  have h2 : ¬(c = '\t') := by intro he; rw [he] at h; exact absurd h (by decide)
  have h3 : ¬(c = '\n') := by intro he; rw [he] at h; exact absurd h (by decide)
  have h4 : ¬(c = '\r') := by intro he; rw [he] at h; exact absurd h (by decide)
  simp [isWs, h1, h2, h3, h4]

/-- Helper: a decimal digit is not the plus sign. -/
theorem digit_not_plus (c : Char) (h : c.isDigit = true) : ¬(c = '+') := by
  intro he
  rw [he] at h
  exact absurd h (by decide)

/-- Helper: a decimal digit is not the minus sign. -/
theorem digit_not_minus (c : Char) (h : c.isDigit = true) : ¬(c = '-') := by
  intro he
  rw [he] at h
  exact absurd h (by decide)

/-- Helper: dropWhile of whitespace leaves an all-digit list unchanged. -/
theorem dropWhile_digits (cs : List Char) (h : ∀ c ∈ cs, c.isDigit = true) :
    cs.dropWhile isWs = cs := by
  cases cs with
  | nil => rfl
  | cons c rest =>
    rw [List.dropWhile_cons]
    simp [digit_not_ws c (h c (List.mem_cons_self c rest))]

/-- Helper: stripping whitespace leaves an all-digit list unchanged. -/
theorem stripWs_digits (cs : List Char) (h : ∀ c ∈ cs, c.isDigit = true) :
    stripWsList cs = cs := by
  unfold stripWsList
  rw [dropWhile_digits cs h,
    dropWhile_digits cs.reverse (fun c hc => h c (List.mem_reverse.mp hc)),
    List.reverse_reverse]

/-- Helper: int() succeeds on a string satisfying isdigit and returns
its decimal value. -/
theorem pyInt_digits (s : String) (h : pyIsdigit s = true) :
    pyInt s = some ((digitsVal s.data : Int)) := by
  unfold pyIsdigit at h
  rw [Bool.and_eq_true] at h
  obtain ⟨hne, hall⟩ := h
  have hall' : ∀ c ∈ s.data, c.isDigit = true := fun c hc => List.all_eq_true.mp hall c hc
  unfold pyInt
  rw [stripWs_digits s.data hall']
  cases hd : s.data with
  | nil => rw [hd] at hne; simp at hne
  | cons c rest =>
    rw [hd] at hall'
    have hc : c.isDigit = true := hall' c (List.mem_cons_self c rest)
    have hrest : (c :: rest).all Char.isDigit = true := List.all_eq_true.mpr hall'
    simp only [pyIntList]
    rw [if_neg (digit_not_plus c hc), if_neg (digit_not_minus c hc), if_pos hrest]

/-- Claim C1 counterexample: in the concrete two measurement-set run
(after predict), the first command file holds one msin=/msout= pair but
the second holds two, so not every file holds exactly one pair. -/
theorem C1_counterexample :
    (c1Run.1.map fun f => (msinMsoutPairs f.2).length) = [1, 2] ∧ (2 : Nat) ≠ 1 := by
  exact ⟨by decide, by decide⟩

/-- Claim C1 (amended): run after predict on two measurement sets writes
exactly two command files, each holding the predict tokens; the token
list accumulates across the loop, so the first file ends with the pair
of the first measurement set only, while the second file holds the
first pair followed by its own pair. -/
theorem C1_run_after_predict (m1 m2 sourcedb h5parm type : String) (subtract : Bool) :
    ((SubtractDP3.init [m1, m2]).predict sourcedb subtract h5parm).run type =
      ([(runFileName type 0,
          dp3Base ++ predictTokens sourcedb subtract h5parm ++
            ["msin=" ++ m1, "msout=sub_" ++ m1]),
        (runFileName type 1,
          dp3Base ++ predictTokens sourcedb subtract h5parm ++
            ["msin=" ++ m1, "msout=sub_" ++ m1, "msin=" ++ m2, "msout=sub_" ++ m2])],
       ⟨[m1, m2], dp3Base, ["predict"]⟩) := by
  simp [SubtractDP3.run, SubtractDP3.predict, SubtractDP3.init, runFilesAux,
    List.append_assoc]

/-- Claim C2 counterexample: in the concrete two measurement-set run
after predict, the token state entering the second loop iteration is
not the base template, and the step list after run is not empty. -/
theorem C2_counterexample :
    (runPreStatesAux (((SubtractDP3.init ["a.ms", "b.ms"]).predict "sky.sourcedb"
        true "sol.h5").cmd) ["a.ms", "b.ms"]).get? 1 ≠ some dp3Base ∧
    ((((SubtractDP3.init ["a.ms", "b.ms"]).predict "sky.sourcedb"
        true "sol.h5").run "predict").2.steps ≠ ([] : List String)) := by
  exact ⟨by decide, by decide⟩

/-- Claim C2 (amended): the token list is reset to the base template
only once, after the whole run loop; inside the loop the state entering
each iteration is the previous file content (the pre-iteration states
are the file contents shifted by one), and the step list is never
reset. -/
theorem C2_run_state (s : SubtractDP3) (type : String) :
    (s.run type).2.cmd = dp3Base ∧ (s.run type).2.steps = s.steps ∧
    ∀ cmd l n, runPreStatesAux cmd l =
      (cmd :: (runFilesAux type n cmd l).map Prod.snd).dropLast := by
  refine ⟨rfl, rfl, ?_⟩
  intro cmd l
  induction l generalizing cmd with
  | nil => intro n; simp [runPreStatesAux, runFilesAux]
  | cons ms rest ih =>
    intro n
    simp only [runPreStatesAux, runFilesAux, List.map_cons, List.dropLast_cons₂]
    rw [ih]

/-- Claim C3 counterexample: with channel count 64 and requested factor
8 (which divides 64), get_largest_divider returns 4, not the largest
divisor of 64 that does not exceed 8 (which is 8). -/
theorem C3_counterexample :
    get_largest_divider 64 8 = DividerOutcome.ret 4 ∧ 8 ∣ 64 ∧
    DividerOutcome.ret 4 ≠ DividerOutcome.ret 8 := by
  exact ⟨by decide, by decide, by decide⟩

/-- Claim C3 (amended): for channel count c at least 1 and requested
factor a at least 2, the averaging factor returned is the largest
divisor of c strictly below a (range(a) stops at a-1), so a itself is
never returned even when it divides c; get_largest_divider(64, 10)
still returns 8. -/
theorem C3_largest_divider (c a : Nat) (hc : 1 ≤ c) (ha : 2 ≤ a) :
    (∃ r, get_largest_divider c a = DividerOutcome.ret r ∧ 0 < r ∧ r < a ∧ r ∣ c ∧
      ∀ d, 0 < d → d < a → d ∣ c → d ≤ r) ∧
    get_largest_divider 64 10 = DividerOutcome.ret 8 := by
  exact ⟨gld_spec c hc a ha, by decide⟩

/-- Claim C3 witness at channel count 64 and requested factor 10. -/
theorem C3_witness :
    (1 ≤ 64 ∧ 2 ≤ 10) ∧
    ((∃ r, get_largest_divider 64 10 = DividerOutcome.ret r ∧ 0 < r ∧ r < 10 ∧ r ∣ 64 ∧
        ∀ d, 0 < d → d < 10 → d ∣ 64 → d ≤ r) ∧
      get_largest_divider 64 10 = DividerOutcome.ret 8) :=
  ⟨⟨by norm_num, by norm_num⟩, C3_largest_divider 64 10 (by norm_num) (by norm_num)⟩

/-- Claim C4 counterexample: the Total Pearson print value on values
[1, 2] with errors [1, 2] equals the inverse-variance weighted mean 6/5
and differs from the plain unweighted mean 3/2 of the values. -/
theorem C4_counterexample :
    invVarPrintValue [1, 2] [1, 2] = 6 / 5 ∧
    invVarPrintValue [1, 2] [1, 2] = specInvVarMean [1, 2] [1, 2] ∧
    invVarPrintValue [1, 2] [1, 2] ≠ specUnweightedMean [1, 2] := by
  refine ⟨?_, invVar_eq_spec [1, 2] [1, 2], ?_⟩ <;>
    norm_num [invVarPrintValue, specUnweightedMean, np_sum, np_divide, np_power, np_recip]

/-- Claim C4 (amended): the per-variant Pearson and Spearman prints use
the plain unweighted mean, but the combined Total Pearson and Spearman
prints use the inverse-variance weighted mean, which differs from the
unweighted mean on concrete inputs. -/
theorem C4_corr_aggregates :
    (∀ xs : List ℚ, corrVariantPrintValue xs = specUnweightedMean xs) ∧
    (∀ vals errs : List ℚ, invVarPrintValue vals errs = specInvVarMean vals errs) ∧
    invVarPrintValue [1, 2] [1, 2] ≠ specUnweightedMean [1, 2] := by
  refine ⟨fun xs => rfl, invVar_eq_spec, ?_⟩
  norm_num [invVarPrintValue, specUnweightedMean, np_sum, np_divide, np_power, np_recip]

/-- Claim C5: on a wellformed result file whose Pearson error line
(lines[-3]) carries 0.1 and whose Spearman error line (lines[-1])
carries 0.3, the cb-style loops take the Pearson error from lines[-3],
but the a401_rudnick and bridge_rudnick loops take it from lines[-1],
so they record the Spearman error 0.3 as the Pearson error. -/
theorem C5_pearson_err_position :
    extract_cb sampleLines = some ⟨"1.5", "0.2", "0.8", "0.1", "0.7", "0.3"⟩ ∧
    extract_a401_rudnick sampleLines = some ⟨"1.5", "0.2", "0.8", "0.3", "0.7", "0.3"⟩ ∧
    ("0.3" : String) ≠ "0.1" := by
  exact ⟨by decide, by decide, by decide⟩

/-- Claim C6: for a solution file whose first table has a pol axis, a
pol axis length of 4 appends exactly the single fulljones apply step
named ac, and a smaller pol axis length appends one apply step per
table key, named ac0, ac1, ... in encounter order, each with
correction set to that key. -/
theorem C6_applycal_steps (cmd steps : List String) (applycal_h5 nm : String)
    (st : SolTab) (rest : List (String × SolTab))
    (hpol : pyInStr "pol" st.axes = true) :
    (st.polShape0 = 4 →
      applycalBranch cmd steps applycal_h5 ⟨(nm, st) :: rest⟩ =
        some (cmd ++ ["ac.type=applycal", "ac.parmdb=" ++ applycal_h5,
                      "ac.correction=fulljones", "ac.soltab=[amplitude000,phase000]"],
              steps ++ ["ac"])) ∧
    (st.polShape0 < 4 →
      applycalBranch cmd steps applycal_h5 ⟨(nm, st) :: rest⟩ =
        some (cmd ++ (((nm, st) :: rest).map Prod.fst).enum.flatMap (fun p =>
                [acName p.1 ++ ".type=applycal",
                 acName p.1 ++ ".parmdb=" ++ applycal_h5,
                 acName p.1 ++ ".correction=" ++ p.2]),
              steps ++ ((((nm, st) :: rest).map Prod.fst).enum.map fun p => acName p.1))) := by
  constructor
  · intro h4
    simp [applycalBranch, isfulljones, hpol, h4]
  · intro hlt
    have h4 : ¬(st.polShape0 = 4) := by omega
    simp only [applycalBranch, isfulljones, hpol, if_true, if_neg h4, if_pos]
    rw [acLoop_eq]
    simp [List.enum]

/-- Claim C6 witness on concrete fulljones and non-fulljones files. -/
theorem C6_witness :
    (pyInStr "pol" "time,freq,ant,pol" = true ∧
      applycalBranch [] [] "sol.h5" ⟨[("amplitude000", ⟨"time,freq,ant,pol", 4⟩)]⟩ =
        some ([] ++ ["ac.type=applycal", "ac.parmdb=" ++ "sol.h5",
                     "ac.correction=fulljones", "ac.soltab=[amplitude000,phase000]"],
              [] ++ ["ac"])) :=
  ⟨by decide,
    (C6_applycal_steps [] [] "sol.h5" "amplitude000" ⟨"time,freq,ant,pol", 4⟩ []
      (by decide)).1 rfl⟩

/-- Claim C7 counterexample: the string +5 is not purely numeric, yet
the branch emits the freqstep token rather than the freqresolution
token. -/
theorem C7_counterexample :
    pyIsdigit "+5" = false ∧ avgFreqTokens "+5" = some ["avg.freqstep=5"] ∧
    some ["avg.freqstep=5"] ≠ some ["avg.freqresolution=+5"] := by
  exact ⟨by decide, by decide, by decide⟩

/-- Claim C7 (amended): a purely numeric freqavg string yields the
freqstep token with its integer value; a non-numeric string whose last
character is alphabetic (such as 2MHz) yields the freqresolution token
carrying the string; but a non-numeric string whose last character is
not alphabetic is also sent down the freqstep branch via int(). -/
theorem C7_freqavg_tokens (s : String) :
    (pyIsdigit s = true →
      ∃ n, pyInt s = some n ∧ avgFreqTokens s = some ["avg.freqstep=" ++ toString n]) ∧
    (pyIsdigit s = false → ∀ c, s.data.getLast? = some c → c.isAlpha = true →
      avgFreqTokens s = some ["avg.freqresolution=" ++ s]) ∧
    (pyIsdigit s = false → ∀ c, s.data.getLast? = some c → c.isAlpha = false →
      avgFreqTokens s = (pyInt s).map fun n => ["avg.freqstep=" ++ toString n]) := by
  refine ⟨?_, ?_, ?_⟩
  · intro hdig
    exact ⟨(digitsVal s.data : Int), pyInt_digits s hdig,
      by simp [avgFreqTokens, hdig, pyInt_digits s hdig]⟩
  · intro hfalse c hlast halpha
    simp [avgFreqTokens, hfalse, hlast, halpha]
  · intro hfalse c hlast halpha
    simp [avgFreqTokens, hfalse, hlast, halpha]

/-- Claim C7 witness on the purely numeric string 8 and on 2MHz. -/
theorem C7_witness :
    (pyIsdigit "8" = true ∧
      ∃ n, pyInt "8" = some n ∧ avgFreqTokens "8" = some ["avg.freqstep=" ++ toString n]) ∧
    (pyIsdigit "2MHz" = false ∧
      avgFreqTokens "2MHz" = some ["avg.freqresolution=" ++ "2MHz"]) :=
  ⟨⟨by decide, (C7_freqavg_tokens "8").1 (by decide)⟩,
   ⟨by decide, (C7_freqavg_tokens "2MHz").2.1 (by decide) 'z' (by decide) (by decide)⟩⟩

/-- Claim C8: every slope print value is the inverse-variance weighted
mean of the spec, and on values [1, 2] with errors [1, 1] it equals
3/2. -/
theorem C8_slope_weighted_mean (vals errs : List ℚ) (h1 : errs ≠ [])
    (h2 : ∀ e ∈ errs, 0 < e) :
    invVarPrintValue vals errs = specInvVarMean vals errs ∧
    invVarPrintValue [1, 2] [1, 1] = 3 / 2 := by
  refine ⟨invVar_eq_spec vals errs, ?_⟩
  norm_num [invVarPrintValue, np_sum, np_divide, np_power, np_recip]

/-- Claim C8 witness on values [1, 2] with errors [1, 1]. -/
theorem C8_witness :
    (([1, 1] : List ℚ) ≠ [] ∧ (∀ e ∈ ([1, 1] : List ℚ), 0 < e)) ∧
    (invVarPrintValue [1, 2] [1, 1] = specInvVarMean [1, 2] [1, 1] ∧
      invVarPrintValue [1, 2] [1, 1] = 3 / 2) :=
  ⟨⟨by simp, by norm_num⟩,
    C8_slope_weighted_mean [1, 2] [1, 1] (by simp) (by norm_num)⟩

/-- Claim C9: the uncertainty function used by the Total prints equals
sqrt(1 / sum of inverse squared errors), and on two equal errors of 1
it equals 1/sqrt(2). -/
theorem C9_total_uncertainty (errs : List ℝ) (h1 : errs ≠ [])
    (h2 : ∀ e ∈ errs, 0 < e) :
    uncertainty errs = specTotalUncertainty errs ∧
    uncertainty [1, 1] = 1 / Real.sqrt 2 := by
  refine ⟨uncertainty_eq_spec errs, ?_⟩
  have h : ((([(1 : ℝ), 1].map fun e => e ^ 2).map fun x => 1 / x)).sum = 2 := by
    norm_num
  rw [uncertainty]
  simp only [h]
  rw [one_div, one_div, Real.sqrt_inv]

/-- Claim C9 witness on two equal errors of 1. -/
theorem C9_witness :
    (([1, 1] : List ℝ) ≠ [] ∧ (∀ e ∈ ([1, 1] : List ℝ), 0 < e)) ∧
    (uncertainty [1, 1] = specTotalUncertainty [1, 1] ∧
      uncertainty [1, 1] = 1 / Real.sqrt 2) :=
  ⟨⟨by simp, by norm_num⟩,
    C9_total_uncertainty [1, 1] (by simp) (by norm_num)⟩

/-- Claim C10: for inp at least 1 and max at least 2, the function
returns a divisor r of inp with 1 <= r <= max - 1, reaching neither the
error exit nor a division by zero; and max = 1 always reaches the
modulo at r = 0 (ZeroDivisionError), so max >= 2 is necessary. -/
theorem C10_safety (inp mx : Nat) (h1 : 1 ≤ inp) (h2 : 2 ≤ mx) :
    (∃ r, get_largest_divider inp mx = DividerOutcome.ret r ∧ 1 ≤ r ∧ r ≤ mx - 1 ∧
      r ∣ inp) ∧
    ∀ c, get_largest_divider c 1 = DividerOutcome.zeroMod := by
  constructor
  · obtain ⟨r, hr, hr0, hrlt, hrdvd, _⟩ := gld_spec inp h1 mx h2
    exact ⟨r, hr, hr0, by omega, hrdvd⟩
  · exact gld_one

/-- Claim C10 witness at inp = 6, max = 4 and at max = 1. -/
theorem C10_witness :
    (1 ≤ 6 ∧ 2 ≤ 4) ∧
    ((∃ r, get_largest_divider 6 4 = DividerOutcome.ret r ∧ 1 ≤ r ∧ r ≤ 4 - 1 ∧
        r ∣ 6) ∧
      ∀ c, get_largest_divider c 1 = DividerOutcome.zeroMod) :=
  ⟨⟨by norm_num, by norm_num⟩, C10_safety 6 4 (by norm_num) (by norm_num)⟩
